import Mathlib

/-!
Shallow embedding of the Docker execution driver of cnab-go
(`driver/docker/docker.go`) together with proofs about its behaviour.

The driver talks to a container engine.  All engine calls made by one
`exec` run are modelled by an `Engine` record that fixes the outcome of
each call the code can make (initialization, pull, the two possible
creates, copy-in, attach, start, the wait race, the output archive, and
remove).  `exec` is translated statement by statement from the Go source
and additionally returns the ordered trace of engine calls it performed,
so that claims about which calls a fake engine would observe become
statements about the trace.
-/

namespace CnabDocker

/-- `path.IsAbs` for unix paths: true iff the path is non-empty and its
first character is a slash. -/
def isAbsPath (p : String) : Bool :=
  match p.data with
  | [] => false
  | c :: _ => c = '/'

/-- Go `path.Clean` (unix, lexical): drop empty and `.` components, resolve
`..` against the preceding component, keep leading `..` for relative paths,
and re-root the result when the input was rooted.  Implemented over the
character list so it evaluates by kernel reduction. -/
def cleanPath (p : String) : String :=
  if p.data = [] then "."
  else
    let rooted := isAbsPath p
    let comps := (p.data.splitOn '/').filter (fun c => c != [] && c != ['.'])
    let stack := comps.foldl (fun acc c =>
      if c = ['.', '.'] then
        match acc with
        | [] => if rooted then [] else [c]
        | a :: rest => if a = ['.', '.'] then c :: a :: rest else rest
      else c :: acc) []
    let joined := List.intercalate ['/'] stack.reverse
    if rooted then String.mk ('/' :: joined)
    else if joined = [] then "." else String.mk joined

/-- Go `filepath.Join` on two elements (unix): join the non-empty elements
with a slash and clean the result. -/
def filepathJoin (a b : String) : String :=
  if a = "" && b = "" then ""
  else if a = "" then cleanPath b
  else if b = "" then cleanPath a
  else cleanPath (a ++ "/" ++ b)

/-- `driver.Operation` as used by the Docker driver: image, environment and
input files.  Go maps are modelled as association lists. -/
structure Operation where
  Image : String
  Environment : List (String × String)
  Files : List (String × String)

/-- `driver.OperationResult`: the flattened output-file map. -/
structure OperationResult where
  Outputs : List (String × String)
deriving DecidableEq, Repr

/-- The empty `driver.OperationResult{}` returned on most error paths. -/
def emptyResult : OperationResult := ⟨[]⟩

/-- Go map assignment `m[k] = v` on the association-list model: overwrite
the existing entry for `k`, or append a fresh one. -/
def insertOutput (m : List (String × String)) (k v : String) :
    List (String × String) :=
  if m.any (fun p => p.1 = k) then
    m.map (fun p => if p.1 = k then (k, v) else p)
  else m ++ [(k, v)]

/-- Go map lookup with the zero-value default: `m[k]` is `""` when absent. -/
def configGet (m : List (String × String)) (k : String) : String :=
  match m.find? (fun p => p.1 = k) with
  | some p => p.2
  | none => ""

/-- `container.Config`: the fields the driver sets before creation. -/
structure ContainerConfig where
  Image : String
  Env : List String
  Entrypoint : List String
  AttachStderr : Bool
  AttachStdout : Bool
deriving DecidableEq, Repr

/-- `container.HostConfig`: opaque to the orchestrator; it only creates an
empty one and hands it to the configuration options.  One representative
field stands for whatever the options may set. -/
structure HostConfig where
  Binds : List String := []
deriving DecidableEq, Repr

/-- `ConfigurationOption func(*container.Config, *container.HostConfig) error`:
in-place mutation is modelled by returning the updated pair. -/
def ConfigurationOption :=
  ContainerConfig → HostConfig → Except String (ContainerConfig × HostConfig)

/-- The Docker `Driver` state that `exec` reads: the string-keyed settings
map, the simulate flag and the registered configuration options. -/
structure Driver where
  config : List (String × String) := []
  Simulate : Bool := false
  dockerConfigurationOptions : List ConfigurationOption := []

/-- `Driver.Config`: the fixed map of recognized configuration options. -/
def DriverConfig (_ : Driver) : List (String × String) :=
  [("VERBOSE", "Increase verbosity. true, false are supported values"),
   ("PULL_ALWAYS", "Always pull image, even if locally available (0|1)"),
   ("DOCKER_DRIVER_QUIET", "Make the Docker driver quiet (only print container stdout/stderr)"),
   ("OUTPUTS_MOUNT_PATH", "Absolute path to where Docker driver can create temporary directories to bundle outputs. Defaults to temp dir.")]

/-- `Driver.SetConfig`: replaces the settings map wholesale. -/
def SetConfig (d : Driver) (settings : List (String × String)) : Driver :=
  { d with config := settings }

/-- A tar header written by `generateTar` (name, mode 0644, payload size). -/
structure TarHeader where
  Name : String
  Mode : Int
  Size : Nat
deriving DecidableEq, Repr

/-- `generateTar`: validate that every destination path is absolute (the
whole loop runs before any entry is produced), then emit one header per
file.  The streamed pipe is modelled by the resulting list of entries. -/
def generateTar (files : List (String × String)) :
    Except String (List (TarHeader × String)) :=
  match files.find? (fun p => !isAbsPath p.1) with
  | some p =>
      .error ("destination path " ++ p.1 ++ " should be an absolute unix path")
  | none =>
      .ok (files.map (fun p => ({ Name := p.1, Mode := 420, Size := p.2.length }, p.2)))

/-- One archive entry delivered by `CopyFromContainer`: its header name,
whether it is a directory, and the outcome of reading its contents
(`ioutil.ReadAll` may fail mid-entry). -/
structure TarEntry where
  name : String
  isDir : Bool
  contents : Except String String
deriving Repr

/-- How the output archive stream terminates after its entries: clean
end-of-archive (`io.EOF`) or a non-EOF error from `tarReader.Next`. -/
inductive TarTerm where
  | eof
  | nextErr (msg : String)
deriving DecidableEq, Repr

/-- The outcome of `CopyFromContainer` on the outputs directory: either the
copy itself fails, or it yields an archive stream. -/
inductive FetchSource where
  | copyErr (msg : String)
  | stream (entries : List TarEntry) (term : TarTerm)
deriving Repr

/-- The in-container path `fetchOutputs` stores an entry under:
`filepath.Join("/cnab/app", header.Name)`. -/
def entryPath (en : TarEntry) : String := filepathJoin "/cnab/app" en.name

/-- The iteration loop of `fetchOutputs` over the archive stream, carrying
the outputs collected so far. -/
def fetchOutputsLoop (acc : List (String × String)) :
    List TarEntry → TarTerm → List (String × String) × Option String
  | [], .eof => (acc, none)
  | [], .nextErr m => (acc, some m)
  | en :: rest, term =>
    if en.isDir then fetchOutputsLoop acc rest term
    else
      match en.contents with
      | .error m =>
          (acc, some ("error while reading \"" ++ entryPath en ++
            "\" from outputs tar: " ++ m))
      | .ok c => fetchOutputsLoop (insertOutput acc (entryPath en) c) rest term

/-- `fetchOutputs`: copy `/cnab/app/outputs` out of the container and
flatten the archive into a path-to-contents map; partial results accompany
any error raised during iteration. -/
def fetchOutputs (src : FetchSource) : OperationResult × Option String :=
  match src with
  | .copyErr m =>
      (⟨[]⟩, some ("error copying outputs from container: " ++ m))
  | .stream entries term =>
      let r := fetchOutputsLoop [] entries term
      (⟨r.1⟩, r.2)

/-- Outcome of one `ContainerCreate` call: success, a not-found error
(recognized by `client.IsErrNotFound`), or any other error. -/
inductive CreateOutcome where
  | ok (id : String)
  | errNotFound (msg : String)
  | errOther (msg : String)

/-- Which of the two channels returned by `ContainerWait` resolves, and
with what: the error channel (possibly with a nil error) or the status
channel with an exit code and optional engine message. -/
inductive WaitOutcome where
  | errc (err : Option String)
  | statusc (statusCode : Int) (errMsg : Option String)

/-- One engine call, as a fake engine would record it. -/
inductive Call where
  | pull
  | createFail
  | createOk
  | copyTo
  | attach
  | start
  | wait
  | copyFrom
  | remove
deriving DecidableEq, Repr

/-- The environment one `exec` call runs against: the outcome of every
engine interaction the code can reach. -/
structure Engine where
  initErr : Option String := none
  eagerPullErr : Option String := none
  create1 : CreateOutcome := .ok "cid"
  notFoundPullErr : Option String := none
  create2 : CreateOutcome := .ok "cid"
  copyToErr : Option String := none
  attachErr : Option String := none
  startErr : Option String := none
  waitOutcome : WaitOutcome := .statusc 0 none
  outputsSrc : FetchSource := .stream [] .eof
  removeErr : Option String := none

/-- Serialization of the operation environment: each `(k, v)` becomes the
string `k=v` (`fmt.Sprintf("%s=%v", k, v)`). -/
def serializeEnv (env : List (String × String)) : List String :=
  env.map (fun p => p.1 ++ "=" ++ p.2)

/-- The `container.Config` literal built by `exec` before the configuration
options run. -/
def buildContainerConfig (op : Operation) : ContainerConfig :=
  { Image := op.Image
    Env := serializeEnv op.Environment
    Entrypoint := ["/cnab/app/run"]
    AttachStderr := true
    AttachStdout := true }

/-- Apply the registered configuration options in order; the first error
short-circuits the rest. -/
def applyOptions : List ConfigurationOption → ContainerConfig → HostConfig →
    Except String (ContainerConfig × HostConfig)
  | [], cfg, h => .ok (cfg, h)
  | opt :: rest, cfg, h =>
    match opt cfg h with
    | .error e => .error e
    | .ok ch => applyOptions rest ch.1 ch.2

/-- Result payload of one `exec` run: the operation result and the Go
error (`none` is a nil error). -/
abbrev ExecResult := OperationResult × Option String

/-- The part of `exec` that runs once the container exists (after the
`defer ContainerRemove`): input staging, copy-in, attach, wait/start and
the completion race.  The caller appends the deferred remove call. -/
def execAfterCreate (_ : Driver) (op : Operation) (e : Engine) :
    ExecResult × List Call :=
  match generateTar op.Files with
  | .error m => ((emptyResult, some ("error staging files: " ++ m)), [])
  | .ok _ =>
    match e.copyToErr with
    | some m =>
        ((emptyResult, some ("error copying to / in container: " ++ m)),
         [.copyTo])
    | none =>
      match e.attachErr with
      | some m =>
          ((emptyResult, some ("unable to retrieve logs: " ++ m)),
           [.copyTo, .attach])
      | none =>
        match e.startErr with
        | some m =>
            ((emptyResult, some ("cannot start container: " ++ m)),
             [.copyTo, .attach, .wait, .start])
        | none =>
          let post : List Call := [.copyTo, .attach, .wait, .start, .copyFrom]
          match e.waitOutcome with
          | .errc (some m) =>
              (((fetchOutputs e.outputsSrc).1,
                some ("error in container: " ++ m)), post)
          | .errc none =>
              (((fetchOutputs e.outputsSrc).1, none), post)
          | .statusc code errMsg =>
            if code = 0 then
              (fetchOutputs e.outputsSrc, post)
            else
              match errMsg with
              | some m =>
                  (((fetchOutputs e.outputsSrc).1,
                    some ("container exit code: " ++ toString code ++
                      ", message: " ++ m)), post)
              | none =>
                  (((fetchOutputs e.outputsSrc).1,
                    some ("container exit code: " ++ toString code)), post)

/-- `exec` from spec construction onward: build the config, run the
options, create the container (with the single pull-and-retry fallback on
a not-found error) and, once creation succeeded, run the rest with the
deferred remove attached.  `tr` is the trace accumulated so far. -/
def execFromSpec (d : Driver) (op : Operation) (e : Engine) (tr : List Call) :
    ExecResult × List Call :=
  match applyOptions d.dockerConfigurationOptions (buildContainerConfig op) {} with
  | .error m => ((emptyResult, some m), tr)
  | .ok _ =>
    match e.create1 with
    | .ok _ =>
        let r := execAfterCreate d op e
        (r.1, tr ++ Call.createOk :: r.2 ++ [Call.remove])
    | .errNotFound _ =>
      match e.notFoundPullErr with
      | some m =>
          ((emptyResult, some m), tr ++ [Call.createFail, Call.pull])
      | none =>
        match e.create2 with
        | .ok _ =>
            let r := execAfterCreate d op e
            (r.1, tr ++ Call.createFail :: Call.pull :: Call.createOk ::
              r.2 ++ [Call.remove])
        | .errNotFound m =>
            ((emptyResult, some ("cannot create container: " ++ m)),
             tr ++ [Call.createFail, Call.pull, Call.createFail])
        | .errOther m =>
            ((emptyResult, some ("cannot create container: " ++ m)),
             tr ++ [Call.createFail, Call.pull, Call.createFail])
    | .errOther m =>
        ((emptyResult, some ("cannot create container: " ++ m)),
         tr ++ [Call.createFail])

/-- `Driver.exec`: client acquisition, the simulate short-circuit, the
optional eager pull, then `execFromSpec`. -/
def exec (d : Driver) (op : Operation) (e : Engine) : ExecResult × List Call :=
  match e.initErr with
  | some m => ((emptyResult, some m), [])
  | none =>
    if d.Simulate then ((emptyResult, none), [])
    else if configGet d.config "PULL_ALWAYS" = "1" then
      match e.eagerPullErr with
      | some m => ((emptyResult, some m), [Call.pull])
      | none => execFromSpec d op e [Call.pull]
    else execFromSpec d op e []

/-- `Driver.Run` delegates to `exec`. -/
def Run (d : Driver) (op : Operation) (e : Engine) : ExecResult × List Call :=
  exec d op e

/-- Whether reading an entry's contents succeeds (`ioutil.ReadAll` does not
fail on it). -/
def readOk (en : TarEntry) : Bool :=
  match en.contents with
  | .ok _ => true
  | .error _ => false

/-- The map entry one archive entry contributes: nothing for a directory
or an unreadable entry, otherwise its full in-container path paired with
its fully read contents. -/
def fileEntry (en : TarEntry) : Option (String × String) :=
  if en.isDir then none
  else
    match en.contents with
    | .ok c => some (entryPath en, c)
    | .error _ => none

/-- The error `fetchOutputs` ends with when the stream terminator is
reached: none at end-of-archive, the raw error otherwise. -/
def termResult : TarTerm → Option String
  | .eof => none
  | .nextErr m => some m

/-- The error message `exec` formats for a non-zero exit status: the
numeric status, with the engine-supplied message appended when present
(`container exit code: %d, message: %v` versus `container exit code: %d`). -/
def exitMessage (code : Int) (errMsg : Option String) : String :=
  match errMsg with
  | some m => "container exit code: " ++ toString code ++ ", message: " ++ m
  | none => "container exit code: " ++ toString code

/-- Distinctness of the in-container paths of the file entries of an
archive stream (tar archives list each path once). -/
def DistinctFilePaths (entries : List TarEntry) : Prop :=
  entries.Pairwise (fun a b =>
    a.isDir = false → b.isDir = false → entryPath a ≠ entryPath b)

instance (entries : List TarEntry) : Decidable (DistinctFilePaths entries) :=
  List.instDecidablePairwise entries

/-! ### Helper lemmas about the trace of `execAfterCreate` -/

theorem execAfterCreate_trace_subset (d : Driver) (op : Operation) (e : Engine) :
    (execAfterCreate d op e).2 ⊆
      [Call.copyTo, Call.attach, Call.wait, Call.start, Call.copyFrom] := by
  unfold execAfterCreate
  rcases generateTar op.Files with m | t
  · simp
  · rcases e.copyToErr with _ | m
    · rcases e.attachErr with _ | m
      · rcases e.startErr with _ | m
        · rcases e.waitOutcome with (_ | m) | ⟨code, errMsg⟩
          · simp
          · simp
          · dsimp only
            split
            · simp
            · rcases errMsg with _ | m <;> simp
        · simp
      · simp
    · simp

theorem execAfterCreate_count_remove (d : Driver) (op : Operation) (e : Engine) :
    (execAfterCreate d op e).2.count Call.remove = 0 :=
  List.count_eq_zero.mpr fun h =>
    absurd (execAfterCreate_trace_subset d op e h) (by decide)

theorem execAfterCreate_count_createOk (d : Driver) (op : Operation) (e : Engine) :
    (execAfterCreate d op e).2.count Call.createOk = 0 :=
  List.count_eq_zero.mpr fun h =>
    absurd (execAfterCreate_trace_subset d op e h) (by decide)

theorem execAfterCreate_count_createFail (d : Driver) (op : Operation) (e : Engine) :
    (execAfterCreate d op e).2.count Call.createFail = 0 :=
  List.count_eq_zero.mpr fun h =>
    absurd (execAfterCreate_trace_subset d op e h) (by decide)

theorem execAfterCreate_count_pull (d : Driver) (op : Operation) (e : Engine) :
    (execAfterCreate d op e).2.count Call.pull = 0 :=
  List.count_eq_zero.mpr fun h =>
    absurd (execAfterCreate_trace_subset d op e h) (by decide)

/-- In the trace of `execFromSpec`, a remove call appears exactly as often
as a successful create appears: the deferred `ContainerRemove` is paired
with the successful `ContainerCreate` and with nothing else. -/
theorem execFromSpec_remove_count (d : Driver) (op : Operation) (e : Engine)
    (tr : List Call) (h1 : Call.remove ∉ tr) (h2 : Call.createOk ∉ tr) :
    (execFromSpec d op e tr).2.count Call.remove =
      if Call.createOk ∈ (execFromSpec d op e tr).2 then 1 else 0 := by
  have h1' := List.count_eq_zero.mpr h1
  unfold execFromSpec
  rcases applyOptions d.dockerConfigurationOptions (buildContainerConfig op) {} with m | ch
  · simp [h1', h2]
  · rcases e.create1 with id | m | m
    · simp [List.count_append, List.count_cons, h1',
        execAfterCreate_count_remove]
    · rcases e.notFoundPullErr with _ | m2
      · rcases e.create2 with id | m2 | m2
        · simp [List.count_append, List.count_cons, h1',
            execAfterCreate_count_remove]
        · simp [List.count_append, List.count_cons, h1', h2]
        · simp [List.count_append, List.count_cons, h1', h2]
      · simp [List.count_append, List.count_cons, h1', h2]
    · simp [List.count_append, List.count_cons, h1', h2]

/-- Reduction of `exec` to `execFromSpec` when client acquisition, the
simulate check and the optional eager pull all pass. -/
theorem exec_eq_execFromSpec (d : Driver) (op : Operation) (e : Engine)
    (hinit : e.initErr = none) (hsim : d.Simulate = false)
    (hpull : configGet d.config "PULL_ALWAYS" = "1" → e.eagerPullErr = none) :
    exec d op e =
      execFromSpec d op e
        (if configGet d.config "PULL_ALWAYS" = "1" then [Call.pull] else []) := by
  unfold exec
  rw [hinit, hsim]
  by_cases hpa : configGet d.config "PULL_ALWAYS" = "1"
  · rw [if_neg (by simp), if_pos hpa, if_pos hpa, hpull hpa]
  · rw [if_neg (by simp), if_neg hpa, if_neg hpa]

/-- Reduction of `execFromSpec` to `execAfterCreate` when the options pass
and the container gets created (directly, or after the one pull retry). -/
theorem execFromSpec_eq_afterCreate (d : Driver) (op : Operation) (e : Engine)
    (tr : List Call) (ch : ContainerConfig × HostConfig)
    (hopts : applyOptions d.dockerConfigurationOptions (buildContainerConfig op) {} =
      .ok ch)
    (hcreate : (∃ cid, e.create1 = .ok cid) ∨
      ((∃ m, e.create1 = .errNotFound m) ∧ e.notFoundPullErr = none ∧
        ∃ cid, e.create2 = .ok cid)) :
    (execFromSpec d op e tr).1 = (execAfterCreate d op e).1 := by
  unfold execFromSpec
  rw [hopts]
  rcases hcreate with ⟨cid, hc⟩ | ⟨⟨m, hc⟩, hp, cid, hc2⟩
  · rw [hc]
  · rw [hc, hp, hc2]

/-- When staging, copy-in, attach and start all pass, the result of
`execAfterCreate` is decided by the wait race alone. -/
theorem execAfterCreate_fst_wait (d : Driver) (op : Operation) (e : Engine)
    (hfiles : op.Files.find? (fun p => !isAbsPath p.1) = none)
    (hcopy : e.copyToErr = none) (hatt : e.attachErr = none)
    (hstart : e.startErr = none) :
    (execAfterCreate d op e).1 =
      match e.waitOutcome with
      | .errc (some m) =>
          ((fetchOutputs e.outputsSrc).1, some ("error in container: " ++ m))
      | .errc none => ((fetchOutputs e.outputsSrc).1, none)
      | .statusc code errMsg =>
          if code = 0 then fetchOutputs e.outputsSrc
          else ((fetchOutputs e.outputsSrc).1,
            some (exitMessage code errMsg)) := by
  have hg : generateTar op.Files =
      .ok (op.Files.map (fun p =>
        ({ Name := p.1, Mode := 420, Size := p.2.length }, p.2))) := by
    unfold generateTar
    rw [hfiles]
  unfold execAfterCreate
  rw [hg, hcopy, hatt, hstart]
  rcases e.waitOutcome with (_ | m) | ⟨code, errMsg⟩
  · rfl
  · rfl
  · dsimp only
    split
    · rfl
    · rcases errMsg with _ | m <;> rfl

/-- Combined reduction: a run that reaches the completion race returns
exactly what the wait race dictates. -/
theorem exec_fst_wait (d : Driver) (op : Operation) (e : Engine)
    (ch : ContainerConfig × HostConfig)
    (hinit : e.initErr = none) (hsim : d.Simulate = false)
    (hpull : configGet d.config "PULL_ALWAYS" = "1" → e.eagerPullErr = none)
    (hopts : applyOptions d.dockerConfigurationOptions (buildContainerConfig op) {} =
      .ok ch)
    (hcreate : (∃ cid, e.create1 = .ok cid) ∨
      ((∃ m, e.create1 = .errNotFound m) ∧ e.notFoundPullErr = none ∧
        ∃ cid, e.create2 = .ok cid))
    (hfiles : op.Files.find? (fun p => !isAbsPath p.1) = none)
    (hcopy : e.copyToErr = none) (hatt : e.attachErr = none)
    (hstart : e.startErr = none) :
    (exec d op e).1 =
      match e.waitOutcome with
      | .errc (some m) =>
          ((fetchOutputs e.outputsSrc).1, some ("error in container: " ++ m))
      | .errc none => ((fetchOutputs e.outputsSrc).1, none)
      | .statusc code errMsg =>
          if code = 0 then fetchOutputs e.outputsSrc
          else ((fetchOutputs e.outputsSrc).1,
            some (exitMessage code errMsg)) := by
  rw [exec_eq_execFromSpec d op e hinit hsim hpull,
    execFromSpec_eq_afterCreate d op e _ ch hopts hcreate,
    execAfterCreate_fst_wait d op e hfiles hcopy hatt hstart]

/-! ### Helper lemmas about `insertOutput` and the `fetchOutputs` loop -/

theorem insertOutput_of_forall_ne (m : List (String × String)) (k v : String)
    (h : ∀ p ∈ m, p.1 ≠ k) : insertOutput m k v = m ++ [(k, v)] := by
  unfold insertOutput
  rw [if_neg]
  simp only [List.any_eq_true, decide_eq_true_eq, not_exists, not_and]
  exact h

theorem mem_insertOutput (m : List (String × String)) (k v : String)
    (p : String × String) (h : p ∈ insertOutput m k v) : p ∈ m ∨ p.1 = k := by
  unfold insertOutput at h
  split at h
  · obtain ⟨q, hq, hpq⟩ := List.mem_map.mp h
    by_cases hk : q.1 = k
    · right
      rw [← hpq, if_pos hk]
    · left
      rw [← hpq, if_neg hk]
      exact hq
  · rcases List.mem_append.mp h with h | h
    · exact .inl h
    · right
      simp only [List.mem_singleton] at h
      rw [h]

/-- When every file entry is readable, the loop appends exactly one map
entry per file entry (directories skipped) and ends with the terminator's
verdict. -/
theorem fetchOutputsLoop_all_read (entries : List TarEntry) (term : TarTerm) :
    ∀ acc : List (String × String),
    (∀ en ∈ entries, en.isDir = false → readOk en = true) →
    (∀ en ∈ entries, en.isDir = false → ∀ p ∈ acc, p.1 ≠ entryPath en) →
    DistinctFilePaths entries →
    fetchOutputsLoop acc entries term =
      (acc ++ entries.filterMap fileEntry, termResult term) := by
  induction entries with
  | nil =>
    intro acc _ _ _
    cases term <;> simp [fetchOutputsLoop, termResult]
  | cons en rest ih =>
    intro acc hread hdisj hdist
    unfold DistinctFilePaths at hdist
    rw [List.pairwise_cons] at hdist
    by_cases hd : en.isDir
    · have hskip : fetchOutputsLoop acc (en :: rest) term =
          fetchOutputsLoop acc rest term := by
        simp [fetchOutputsLoop, hd]
      have hfe : fileEntry en = none := by simp [fileEntry, hd]
      rw [hskip, ih acc (fun a ha => hread a (List.mem_cons_of_mem en ha))
        (fun a ha => hdisj a (List.mem_cons_of_mem en ha)) hdist.2]
      simp [List.filterMap_cons, hfe]
    · have hd' : en.isDir = false := by simpa using hd
      have hok := hread en (List.mem_cons_self en rest) hd'
      cases hc : en.contents with
      | error msg => rw [readOk, hc] at hok; cases hok
      | ok c =>
        have hstep : fetchOutputsLoop acc (en :: rest) term =
            fetchOutputsLoop (insertOutput acc (entryPath en) c) rest term := by
          simp [fetchOutputsLoop, hd, hc]
        have hins : insertOutput acc (entryPath en) c =
            acc ++ [(entryPath en, c)] :=
          insertOutput_of_forall_ne acc (entryPath en) c
            (hdisj en (List.mem_cons_self en rest) hd')
        have hfe : fileEntry en = some (entryPath en, c) := by
          simp [fileEntry, hd, hc]
        rw [hstep, hins,
          ih (acc ++ [(entryPath en, c)])
            (fun a ha => hread a (List.mem_cons_of_mem en ha))
            (fun a ha hadir p hp => by
              rcases List.mem_append.mp hp with hp | hp
              · exact hdisj a (List.mem_cons_of_mem en ha) hadir p hp
              · simp only [List.mem_singleton] at hp
                rw [hp]
                exact hdist.1 a ha hd' hadir)
            hdist.2]
        simp [List.filterMap_cons, hfe]


/-- A read failure on a file entry aborts the loop with exactly the map
entries collected from the (readable) entries before it. -/
theorem fetchOutputsLoop_read_err (pre : List TarEntry) (en : TarEntry)
    (post : List TarEntry) (msg : String) (term : TarTerm) :
    ∀ acc : List (String × String),
    en.isDir = false → en.contents = .error msg →
    (∀ q ∈ pre, q.isDir = false → readOk q = true) →
    (∀ q ∈ pre, q.isDir = false → ∀ p ∈ acc, p.1 ≠ entryPath q) →
    DistinctFilePaths pre →
    fetchOutputsLoop acc (pre ++ en :: post) term =
      (acc ++ pre.filterMap fileEntry,
       some ("error while reading \"" ++ entryPath en ++
         "\" from outputs tar: " ++ msg)) := by
  induction pre with
  | nil =>
    intro acc hd hc _ _ _
    simp [fetchOutputsLoop, hd, hc]
  | cons q rest ih =>
    intro acc hd hc hread hdisj hdist
    unfold DistinctFilePaths at hdist
    rw [List.pairwise_cons] at hdist
    by_cases hqd : q.isDir
    · have hskip : fetchOutputsLoop acc ((q :: rest) ++ en :: post) term =
          fetchOutputsLoop acc (rest ++ en :: post) term := by
        simp [fetchOutputsLoop, hqd]
      have hfe : fileEntry q = none := by simp [fileEntry, hqd]
      rw [hskip, ih acc hd hc (fun a ha => hread a (List.mem_cons_of_mem q ha))
        (fun a ha => hdisj a (List.mem_cons_of_mem q ha)) hdist.2]
      simp [List.filterMap_cons, hfe]
    · have hqd' : q.isDir = false := by simpa using hqd
      have hok := hread q (List.mem_cons_self q rest) hqd'
      cases hqc : q.contents with
      | error m2 => rw [readOk, hqc] at hok; cases hok
      | ok c =>
        have hstep : fetchOutputsLoop acc ((q :: rest) ++ en :: post) term =
            fetchOutputsLoop (insertOutput acc (entryPath q) c)
              (rest ++ en :: post) term := by
          simp [fetchOutputsLoop, hqd, hqc]
        have hins : insertOutput acc (entryPath q) c =
            acc ++ [(entryPath q, c)] :=
          insertOutput_of_forall_ne acc (entryPath q) c
            (hdisj q (List.mem_cons_self q rest) hqd')
        have hfe : fileEntry q = some (entryPath q, c) := by
          simp [fileEntry, hqd, hqc]
        rw [hstep, hins,
          ih (acc ++ [(entryPath q, c)]) hd hc
            (fun a ha => hread a (List.mem_cons_of_mem q ha))
            (fun a ha hadir p hp => by
              rcases List.mem_append.mp hp with hp | hp
              · exact hdisj a (List.mem_cons_of_mem q ha) hadir p hp
              · simp only [List.mem_singleton] at hp
                rw [hp]
                exact hdist.1 a ha hqd' hadir)
            hdist.2]
        simp [List.filterMap_cons, hfe]

/-- Every map entry produced by the loop comes from the accumulator or
from a non-directory archive entry: directories are never represented. -/
theorem fetchOutputsLoop_mem (entries : List TarEntry) (term : TarTerm) :
    ∀ (acc : List (String × String)) (p : String × String),
    p ∈ (fetchOutputsLoop acc entries term).1 →
    p ∈ acc ∨ ∃ en ∈ entries, en.isDir = false ∧ p.1 = entryPath en := by
  induction entries with
  | nil =>
    intro acc p h
    cases term <;> simp [fetchOutputsLoop] at h <;> exact .inl h
  | cons en rest ih =>
    intro acc p h
    by_cases hd : en.isDir
    · rw [show fetchOutputsLoop acc (en :: rest) term =
          fetchOutputsLoop acc rest term from by simp [fetchOutputsLoop, hd]] at h
      rcases ih acc p h with h | ⟨a, ha, hfa⟩
      · exact .inl h
      · exact .inr ⟨a, List.mem_cons_of_mem en ha, hfa⟩
    · have hd' : en.isDir = false := by simpa using hd
      cases hc : en.contents with
      | error m =>
        rw [show fetchOutputsLoop acc (en :: rest) term =
            (acc, some ("error while reading \"" ++ entryPath en ++
              "\" from outputs tar: " ++ m)) from by
          simp [fetchOutputsLoop, hd, hc]] at h
        exact .inl h
      | ok c =>
        rw [show fetchOutputsLoop acc (en :: rest) term =
            fetchOutputsLoop (insertOutput acc (entryPath en) c) rest term from by
          simp [fetchOutputsLoop, hd, hc]] at h
        rcases ih _ p h with h | ⟨a, ha, hfa⟩
        · rcases mem_insertOutput acc (entryPath en) c p h with h | h
          · exact .inl h
          · exact .inr ⟨en, List.mem_cons_self en rest, hd', h⟩
        · exact .inr ⟨a, List.mem_cons_of_mem en ha, hfa⟩


/-- Lift of `fetchOutputsLoop_all_read` to `fetchOutputs`. -/
theorem fetchOutputs_all_read (entries : List TarEntry) (term : TarTerm)
    (hread : ∀ en ∈ entries, en.isDir = false → readOk en = true)
    (hdist : DistinctFilePaths entries) :
    fetchOutputs (.stream entries term) =
      (⟨entries.filterMap fileEntry⟩, termResult term) := by
  simp [fetchOutputs,
    fetchOutputsLoop_all_read entries term [] hread (by simp) hdist]

/-- Lift of `fetchOutputsLoop_read_err` to `fetchOutputs`. -/
theorem fetchOutputs_read_err (pre : List TarEntry) (en : TarEntry)
    (post : List TarEntry) (msg : String) (term : TarTerm)
    (hd : en.isDir = false) (hc : en.contents = .error msg)
    (hread : ∀ q ∈ pre, q.isDir = false → readOk q = true)
    (hdist : DistinctFilePaths pre) :
    fetchOutputs (.stream (pre ++ en :: post) term) =
      (⟨pre.filterMap fileEntry⟩,
       some ("error while reading \"" ++ entryPath en ++
         "\" from outputs tar: " ++ msg)) := by
  simp [fetchOutputs,
    fetchOutputsLoop_read_err pre en post msg term [] hd hc hread (by simp) hdist]

/-- Lift of `fetchOutputsLoop_mem` to `fetchOutputs`: every collected entry
stems from a non-directory archive entry. -/
theorem fetchOutputs_mem_source (entries : List TarEntry) (term : TarTerm)
    (p : String × String)
    (hp : p ∈ (fetchOutputs (.stream entries term)).1.Outputs) :
    ∃ en ∈ entries, en.isDir = false ∧ p.1 = entryPath en := by
  have h := fetchOutputsLoop_mem entries term [] p (by
    simpa [fetchOutputs] using hp)
  simpa using h


/-- Options compose in registration order: running `opts1 ++ opts2` is
running `opts1`, then feeding its result to `opts2`, with the first error
short-circuiting. -/
theorem applyOptions_append (opts1 opts2 : List ConfigurationOption) :
    ∀ (cfg : ContainerConfig) (h : HostConfig),
    applyOptions (opts1 ++ opts2) cfg h =
      match applyOptions opts1 cfg h with
      | .error m => .error m
      | .ok p => applyOptions opts2 p.1 p.2 := by
  induction opts1 with
  | nil =>
    intro cfg h
    rfl
  | cons opt rest ih =>
    intro cfg h
    simp only [List.cons_append, applyOptions]
    cases hoc : opt cfg h with
    | error m => rfl
    | ok ch => exact ih ch.1 ch.2

/-! ### Claim theorems -/

/-- C9: `Config()` returns the same enumerated option map — same keys, same
descriptions — on every call, independent of the driver state, so two calls
without (or even with) an intervening `SetConfig` agree. -/
theorem config_enumeration_constant (d1 d2 : Driver) :
    DriverConfig d1 = DriverConfig d2 ∧
    DriverConfig (SetConfig d1 (DriverConfig d2)) = DriverConfig d1 :=
  ⟨rfl, rfl⟩

/-- C6: with the Simulate flag set, `Run` returns an empty result and a nil
error and performs no engine call (empty trace); the check sits after
client acquisition, so an acquisition failure still aborts first. -/
theorem simulate_short_circuit (d : Driver) (op : Operation) (e : Engine)
    (hsim : d.Simulate = true) :
    (e.initErr = none → exec d op e = ((emptyResult, none), [])) ∧
    (∀ m, e.initErr = some m → exec d op e = ((emptyResult, some m), [])) := by
  constructor
  · intro h
    simp [exec, h, hsim, emptyResult]
  · intro m h
    simp [exec, h, emptyResult]

theorem simulate_short_circuit_witness :
    exec { Simulate := true } { Image := "img", Environment := [], Files := [] }
      {} = ((emptyResult, none), []) :=
  (simulate_short_circuit { Simulate := true }
    { Image := "img", Environment := [], Files := [] } {} rfl).1 rfl

/-- C1: whenever a run's trace records a successful container creation, it
records exactly one container-remove call, whichever later step failed; and
the outcome of the remove call itself (swallowed by the deferred call) has
no effect on anything `Run` returns. -/
theorem cleanup_exactly_once (d : Driver) (op : Operation) (e : Engine) :
    (Call.createOk ∈ (exec d op e).2 → (exec d op e).2.count Call.remove = 1) ∧
    (∀ r, exec d op { e with removeErr := r } = exec d op e) := by
  constructor
  · cases hinit : e.initErr with
    | some m =>
      intro hmem
      simp [exec, hinit] at hmem
    | none =>
      cases hsim : d.Simulate with
      | true =>
        intro hmem
        simp [exec, hinit, hsim] at hmem
      | false =>
        by_cases hpa : configGet d.config "PULL_ALWAYS" = "1"
        · cases hep : e.eagerPullErr with
          | some m =>
            intro hmem
            simp [exec, hinit, hsim, hpa, hep] at hmem
          | none =>
            intro hmem
            have hx : exec d op e = execFromSpec d op e [Call.pull] := by
              simp [exec, hinit, hsim, hpa, hep]
            rw [hx] at hmem ⊢
            rw [execFromSpec_remove_count d op e [Call.pull] (by decide)
              (by decide), if_pos hmem]
        · intro hmem
          have hx : exec d op e = execFromSpec d op e [] := by
            simp [exec, hinit, hsim, hpa]
          rw [hx] at hmem ⊢
          rw [execFromSpec_remove_count d op e [] (by decide) (by decide),
            if_pos hmem]
  · intro r
    cases e
    rfl

theorem cleanup_exactly_once_witness :
    (exec {} { Image := "img", Environment := [], Files := [] } {}).2.count
      Call.remove = 1 :=
  (cleanup_exactly_once {} { Image := "img", Environment := [], Files := [] }
    {}).1 (by decide)


/-- C2 counterexample: an operation with the non-absolute file key
`cnab/app/run` does make `Run` fail with the validation error for that
path, but only after the engine has seen a (successful) create call — the
trace is `[createOk, remove]`, not the empty trace the claim requires. -/
theorem files_validation_not_before_create :
    (exec {} { Image := "img", Environment := [], Files := [("cnab/app/run", "echo")] } {}).2 =
      [Call.createOk, Call.remove] ∧
    (exec {} { Image := "img", Environment := [], Files := [("cnab/app/run", "echo")] } {}).2 ≠ [] ∧
    (exec {} { Image := "img", Environment := [], Files := [("cnab/app/run", "echo")] } {}).1.2 =
      some "error staging files: destination path cnab/app/run should be an absolute unix path" := by
  refine ⟨by decide, by decide, by decide⟩

/-- C2 amended: with a non-absolute file key, `Run` fails with the
validation error for that path before the archive is copied in — the
engine sees no copy, attach, start, wait or output call — but only after
the container was created: with no eager pull and a first create that
succeeds, the fake engine observes exactly one create and one remove. -/
theorem files_validation_after_create (d : Driver) (op : Operation)
    (e : Engine) (cid : String) (pbad : String × String)
    (ch : ContainerConfig × HostConfig)
    (hinit : e.initErr = none) (hsim : d.Simulate = false)
    (hpa : configGet d.config "PULL_ALWAYS" ≠ "1")
    (hopts : applyOptions d.dockerConfigurationOptions
      (buildContainerConfig op) {} = .ok ch)
    (hc1 : e.create1 = .ok cid)
    (hbad : op.Files.find? (fun p => !isAbsPath p.1) = some pbad) :
    exec d op e = ((emptyResult,
      some ("error staging files: destination path " ++ pbad.1 ++
        " should be an absolute unix path")), [Call.createOk, Call.remove]) := by
  have hg : generateTar op.Files = .error ("destination path " ++ pbad.1 ++
      " should be an absolute unix path") := by
    unfold generateTar
    rw [hbad]
  rw [exec_eq_execFromSpec d op e hinit hsim (fun h => absurd h hpa),
    if_neg hpa]
  unfold execFromSpec
  rw [hopts, hc1]
  unfold execAfterCreate
  rw [hg]
  rfl

theorem files_validation_after_create_witness :
    exec {} { Image := "img", Environment := [], Files := [("rel", "x")] } {} =
      ((emptyResult,
        some "error staging files: destination path rel should be an absolute unix path"),
       [Call.createOk, Call.remove]) :=
  (files_validation_after_create {}
    { Image := "img", Environment := [], Files := [("rel", "x")] } {}
    "cid" ("rel", "x") (buildContainerConfig
      { Image := "img", Environment := [], Files := [("rel", "x")] }, {})
    rfl rfl (by decide) rfl rfl rfl).trans (by decide)

/-- C5: a first create failing with not-found triggers one pull and one
retry — the trace then counts exactly one pull, one failed create and one
successful create; a first create failing otherwise is fatal with no pull
or retry; a second failure after the pull is fatal too. -/
theorem create_notfound_pull_retry (d : Driver) (op : Operation) (e : Engine)
    (ch : ContainerConfig × HostConfig)
    (hinit : e.initErr = none) (hsim : d.Simulate = false)
    (hpa : configGet d.config "PULL_ALWAYS" ≠ "1")
    (hopts : applyOptions d.dockerConfigurationOptions
      (buildContainerConfig op) {} = .ok ch) :
    (∀ m cid, e.create1 = .errNotFound m → e.notFoundPullErr = none →
      e.create2 = .ok cid →
      (exec d op e).2.count Call.pull = 1 ∧
      (exec d op e).2.count Call.createFail = 1 ∧
      (exec d op e).2.count Call.createOk = 1) ∧
    (∀ m, e.create1 = .errOther m →
      exec d op e = ((emptyResult,
        some ("cannot create container: " ++ m)), [Call.createFail])) ∧
    (∀ m m2, e.create1 = .errNotFound m → e.notFoundPullErr = none →
      (e.create2 = .errNotFound m2 ∨ e.create2 = .errOther m2) →
      exec d op e = ((emptyResult, some ("cannot create container: " ++ m2)),
        [Call.createFail, Call.pull, Call.createFail])) := by
  have hx : exec d op e = execFromSpec d op e [] := by
    rw [exec_eq_execFromSpec d op e hinit hsim (fun h => absurd h hpa),
      if_neg hpa]
  refine ⟨?_, ?_, ?_⟩
  · intro m cid hc1 hp hc2
    rw [hx]
    unfold execFromSpec
    rw [hopts, hc1, hp, hc2]
    refine ⟨?_, ?_, ?_⟩ <;>
      simp [List.count_append, List.count_cons, execAfterCreate_count_pull,
        execAfterCreate_count_createFail, execAfterCreate_count_createOk]
  · intro m hc1
    rw [hx]
    unfold execFromSpec
    rw [hopts, hc1]
    rfl
  · intro m m2 hc1 hp hc2
    rw [hx]
    unfold execFromSpec
    rw [hopts, hc1, hp]
    rcases hc2 with hc2 | hc2 <;> rw [hc2] <;> rfl

theorem create_notfound_pull_retry_witness :
    (exec {} { Image := "img", Environment := [], Files := [] }
        { create1 := .errNotFound "no such image" }).2.count Call.pull = 1 ∧
    (exec {} { Image := "img", Environment := [], Files := [] }
        { create1 := .errNotFound "no such image" }).2.count Call.createFail = 1 ∧
    (exec {} { Image := "img", Environment := [], Files := [] }
        { create1 := .errNotFound "no such image" }).2.count Call.createOk = 1 :=
  (create_notfound_pull_retry {}
    { Image := "img", Environment := [], Files := [] }
    { create1 := .errNotFound "no such image" }
    (buildContainerConfig { Image := "img", Environment := [], Files := [] }, {})
    rfl rfl (by decide) rfl).1 "no such image" "cid" rfl rfl rfl


/-- C8: the container spec is built with the operation image, one `k=v`
string per environment entry, the fixed `/cnab/app/run` entrypoint and
both output streams attached; the registered options run in registration
order (append law), and the first failing option aborts the run before any
create or copy call. -/
theorem spec_construction_and_options (d : Driver) (op : Operation)
    (e : Engine) :
    (buildContainerConfig op = {
        Image := op.Image,
        Env := op.Environment.map (fun p => p.1 ++ "=" ++ p.2),
        Entrypoint := ["/cnab/app/run"],
        AttachStderr := true,
        AttachStdout := true }) ∧
    (∀ (opts1 opts2 : List ConfigurationOption) (cfg : ContainerConfig)
        (h : HostConfig),
      applyOptions (opts1 ++ opts2) cfg h =
        (applyOptions opts1 cfg h).bind
          (fun p => applyOptions opts2 p.1 p.2)) ∧
    (e.initErr = none → d.Simulate = false →
      (configGet d.config "PULL_ALWAYS" = "1" → e.eagerPullErr = none) →
      ∀ m, applyOptions d.dockerConfigurationOptions
        (buildContainerConfig op) {} = .error m →
      (exec d op e).1 = (emptyResult, some m) ∧
      Call.createOk ∉ (exec d op e).2 ∧
      Call.createFail ∉ (exec d op e).2 ∧
      Call.copyTo ∉ (exec d op e).2) := by
  refine ⟨rfl, ?_, ?_⟩
  · intro opts1 opts2 cfg h
    rw [applyOptions_append opts1 opts2 cfg h]
    cases applyOptions opts1 cfg h <;> rfl
  · intro hinit hsim hpull m hopt
    rw [exec_eq_execFromSpec d op e hinit hsim hpull]
    unfold execFromSpec
    rw [hopt]
    dsimp only
    by_cases hpa : configGet d.config "PULL_ALWAYS" = "1"
    · rw [if_pos hpa]
      refine ⟨rfl, ?_, ?_, ?_⟩ <;> decide
    · rw [if_neg hpa]
      refine ⟨rfl, ?_, ?_, ?_⟩ <;> decide

theorem spec_construction_and_options_witness :
    (exec { dockerConfigurationOptions := [fun _ _ => Except.error "boom"] }
        { Image := "img", Environment := [], Files := [] } {}).1 =
      (emptyResult, some "boom") :=
  ((spec_construction_and_options
      { dockerConfigurationOptions := [fun _ _ => Except.error "boom"] }
      { Image := "img", Environment := [], Files := [] } {}).2.2
    rfl rfl (fun _ => rfl) "boom" rfl).1

/-- C7: iterating an output archive stream, directory entries never reach
the result map; readable file entries are stored under their re-prefixed
in-container path with their full contents, ending with the terminator's
verdict (nil at end-of-archive, the raw error otherwise); a read failure
aborts with exactly the entries collected before it. -/
theorem fetchOutputs_stream_contract (entries : List TarEntry)
    (term : TarTerm) :
    (∀ p ∈ (fetchOutputs (.stream entries term)).1.Outputs,
      ∃ en ∈ entries, en.isDir = false ∧ p.1 = entryPath en) ∧
    ((∀ en ∈ entries, en.isDir = false → readOk en = true) →
      DistinctFilePaths entries →
      fetchOutputs (.stream entries term) =
        (⟨entries.filterMap fileEntry⟩, termResult term)) ∧
    (∀ pre en post msg, entries = pre ++ en :: post → en.isDir = false →
      en.contents = Except.error msg →
      (∀ q ∈ pre, q.isDir = false → readOk q = true) →
      DistinctFilePaths pre →
      fetchOutputs (.stream entries term) =
        (⟨pre.filterMap fileEntry⟩,
         some ("error while reading \"" ++ entryPath en ++
           "\" from outputs tar: " ++ msg))) := by
  refine ⟨?_, ?_, ?_⟩
  · exact fun p hp => fetchOutputs_mem_source entries term p hp
  · exact fun hread hdist => fetchOutputs_all_read entries term hread hdist
  · intro pre en post msg he hd hc hread hdist
    subst he
    exact fetchOutputs_read_err pre en post msg term hd hc hread hdist

theorem fetchOutputs_stream_contract_witness :
    fetchOutputs (.stream [⟨"outputs", true, Except.ok ""⟩, ⟨"outputs/a.txt", false, Except.ok "A"⟩] .eof) =
      (⟨[("/cnab/app/outputs/a.txt", "A")]⟩, none) :=
  ((fetchOutputs_stream_contract
      [⟨"outputs", true, Except.ok ""⟩, ⟨"outputs/a.txt", false, Except.ok "A"⟩]
      .eof).2.1 (by decide) (by decide)).trans (by decide)

/-- C4: a run whose container exits with status 0 and whose output archive
is delivered and fully readable returns a nil error and exactly one output
per non-directory archive entry, keyed by its full in-container path. -/
theorem zero_exit_success_outputs (d : Driver) (op : Operation) (e : Engine)
    (ch : ContainerConfig × HostConfig) (entries : List TarEntry)
    (errMsg : Option String)
    (hinit : e.initErr = none) (hsim : d.Simulate = false)
    (hpull : configGet d.config "PULL_ALWAYS" = "1" → e.eagerPullErr = none)
    (hopts : applyOptions d.dockerConfigurationOptions
      (buildContainerConfig op) {} = .ok ch)
    (hcreate : (∃ cid, e.create1 = .ok cid) ∨
      ((∃ m, e.create1 = .errNotFound m) ∧ e.notFoundPullErr = none ∧
        ∃ cid, e.create2 = .ok cid))
    (hfiles : op.Files.find? (fun p => !isAbsPath p.1) = none)
    (hcopy : e.copyToErr = none) (hatt : e.attachErr = none)
    (hstart : e.startErr = none)
    (hw : e.waitOutcome = .statusc 0 errMsg)
    (hsrc : e.outputsSrc = .stream entries .eof)
    (hread : ∀ en ∈ entries, en.isDir = false → readOk en = true)
    (hdist : DistinctFilePaths entries) :
    (exec d op e).1 = (⟨entries.filterMap fileEntry⟩, none) := by
  have h := exec_fst_wait d op e ch hinit hsim hpull hopts hcreate hfiles
    hcopy hatt hstart
  rw [hw] at h
  rw [h]
  dsimp only
  rw [if_pos rfl, hsrc, fetchOutputs_all_read entries .eof hread hdist]
  rfl

theorem zero_exit_success_outputs_witness :
    (exec {} { Image := "example/install:v1", Environment := [], Files := [("/cnab/app/run", "run")] } { outputsSrc := .stream [⟨"outputs/install.log", false, Except.ok "ok"⟩] .eof }).1 =
      (⟨[("/cnab/app/outputs/install.log", "ok")]⟩, none) :=
  (zero_exit_success_outputs {}
    { Image := "example/install:v1", Environment := [], Files := [("/cnab/app/run", "run")] }
    { outputsSrc := .stream [⟨"outputs/install.log", false, Except.ok "ok"⟩] .eof }
    (buildContainerConfig { Image := "example/install:v1", Environment := [], Files := [("/cnab/app/run", "run")] }, {})
    [⟨"outputs/install.log", false, Except.ok "ok"⟩] none
    rfl rfl (fun _ => rfl) rfl (Or.inl ⟨"cid", rfl⟩) (by decide)
    rfl rfl rfl rfl rfl (by decide) (by decide)).trans (by decide)

/-- C3: a run whose wait channel resolves with a non-zero exit status
returns a non-nil error carrying the numeric status — with the engine
message appended when present and nothing else when absent — and its
outputs are whatever `fetchOutputs` collected, in particular every file
parsed before a read failure. -/
theorem nonzero_exit_error_message (d : Driver) (op : Operation) (e : Engine)
    (ch : ContainerConfig × HostConfig) (code : Int) (errMsg : Option String)
    (hinit : e.initErr = none) (hsim : d.Simulate = false)
    (hpull : configGet d.config "PULL_ALWAYS" = "1" → e.eagerPullErr = none)
    (hopts : applyOptions d.dockerConfigurationOptions
      (buildContainerConfig op) {} = .ok ch)
    (hcreate : (∃ cid, e.create1 = .ok cid) ∨
      ((∃ m, e.create1 = .errNotFound m) ∧ e.notFoundPullErr = none ∧
        ∃ cid, e.create2 = .ok cid))
    (hfiles : op.Files.find? (fun p => !isAbsPath p.1) = none)
    (hcopy : e.copyToErr = none) (hatt : e.attachErr = none)
    (hstart : e.startErr = none)
    (hw : e.waitOutcome = .statusc code errMsg) (hcode : code ≠ 0) :
    (exec d op e).1.1 = (fetchOutputs e.outputsSrc).1 ∧
    (exec d op e).1.2 = some (exitMessage code errMsg) ∧
    (∀ entries pre en post msg term, e.outputsSrc = .stream entries term →
      entries = pre ++ en :: post → en.isDir = false →
      en.contents = Except.error msg →
      (∀ q ∈ pre, q.isDir = false → readOk q = true) →
      DistinctFilePaths pre →
      (exec d op e).1.1.Outputs = pre.filterMap fileEntry) := by
  have h := exec_fst_wait d op e ch hinit hsim hpull hopts hcreate hfiles
    hcopy hatt hstart
  rw [hw] at h
  have h2 : (exec d op e).1 =
      ((fetchOutputs e.outputsSrc).1, some (exitMessage code errMsg)) := by
    rw [h]
    dsimp only
    rw [if_neg hcode]
  refine ⟨by rw [h2], by rw [h2], ?_⟩
  intro entries pre en post msg term hsrc he hd hc hread hdist
  subst he
  rw [h2]
  dsimp only
  rw [hsrc, fetchOutputs_read_err pre en post msg term hd hc hread hdist]

theorem nonzero_exit_error_message_witness :
    (exec {} { Image := "img", Environment := [], Files := [] } { waitOutcome := .statusc 137 none }).1.2 =
      some "container exit code: 137" :=
  ((nonzero_exit_error_message {}
    { Image := "img", Environment := [], Files := [] }
    { waitOutcome := .statusc 137 none }
    (buildContainerConfig { Image := "img", Environment := [], Files := [] }, {})
    137 none rfl rfl (fun _ => rfl) rfl (Or.inl ⟨"cid", rfl⟩) rfl
    rfl rfl rfl rfl (by decide)).2.1).trans (by decide)

/-- C10: the non-zero-exit and non-nil-wait-error branches build their
error from the exit status or wait error alone — any `fetchOutputs` error
is discarded while the collected partial outputs are still returned — and
only the zero-exit branch returns `fetchOutputs` wholesale, error
included. -/
theorem fetch_error_discarded_except_zero_exit (d : Driver) (op : Operation)
    (e : Engine) (ch : ContainerConfig × HostConfig)
    (hinit : e.initErr = none) (hsim : d.Simulate = false)
    (hpull : configGet d.config "PULL_ALWAYS" = "1" → e.eagerPullErr = none)
    (hopts : applyOptions d.dockerConfigurationOptions
      (buildContainerConfig op) {} = .ok ch)
    (hcreate : (∃ cid, e.create1 = .ok cid) ∨
      ((∃ m, e.create1 = .errNotFound m) ∧ e.notFoundPullErr = none ∧
        ∃ cid, e.create2 = .ok cid))
    (hfiles : op.Files.find? (fun p => !isAbsPath p.1) = none)
    (hcopy : e.copyToErr = none) (hatt : e.attachErr = none)
    (hstart : e.startErr = none) :
    (∀ m, e.waitOutcome = .errc (some m) →
      (exec d op e).1 = ((fetchOutputs e.outputsSrc).1,
        some ("error in container: " ++ m))) ∧
    (∀ code errMsg, e.waitOutcome = .statusc code errMsg → code ≠ 0 →
      (exec d op e).1 = ((fetchOutputs e.outputsSrc).1,
        some (exitMessage code errMsg))) ∧
    (∀ errMsg, e.waitOutcome = .statusc 0 errMsg →
      (exec d op e).1 = fetchOutputs e.outputsSrc) := by
  have h := exec_fst_wait d op e ch hinit hsim hpull hopts hcreate hfiles
    hcopy hatt hstart
  refine ⟨?_, ?_, ?_⟩
  · intro m hw
    rw [hw] at h
    exact h
  · intro code errMsg hw hcode
    rw [hw] at h
    rw [h]
    dsimp only
    rw [if_neg hcode]
  · intro errMsg hw
    rw [hw] at h
    rw [h]
    dsimp only
    rw [if_pos rfl]

theorem fetch_error_discarded_except_zero_exit_witness :
    (exec {} { Image := "img", Environment := [], Files := [] } { waitOutcome := .errc (some "broke"), outputsSrc := .copyErr "cp failed" }).1 =
      ((⟨[]⟩ : OperationResult), some "error in container: broke") :=
  ((fetch_error_discarded_except_zero_exit {}
    { Image := "img", Environment := [], Files := [] }
    { waitOutcome := .errc (some "broke"), outputsSrc := .copyErr "cp failed" }
    (buildContainerConfig { Image := "img", Environment := [], Files := [] }, {})
    rfl rfl (fun _ => rfl) rfl (Or.inl ⟨"cid", rfl⟩) rfl
    rfl rfl rfl).1 "broke" rfl).trans (by decide)
end CnabDocker
